import Mathlib

/-!
Verification development for the gemini-antiblock-go streaming retry proxy.

The definitions below are a shallow embedding of the repository's
`streaming/sse.go` and `streaming/retry.go` (plus the pieces of the data
model they need).  Go strings are modelled as Lean `String`s, Go byte
lengths as `String.utf8ByteSize`, `map[string]interface{}` as association
lists with map-update semantics, and `encoding/json` as an executable
parser/serializer pair (`goJsonParse` / `goJsonSerialize`); as in Go,
serialization sorts object keys.  Numeric JSON literals are modelled as
integers, which covers every value this program produces or inspects.
-/

set_option maxRecDepth 100000

namespace GeminiAntiblock

/-! ## Go string primitives -/

/-- Whitespace predicate of Go's `unicode.IsSpace` (the Unicode
White_Space class). -/
def goIsSpace (c : Char) : Bool :=
  let n := c.toNat
  (9 ≤ n && n ≤ 13) || n == 32 || n == 0x85 || n == 0xA0 || n == 0x1680 ||
  (0x2000 ≤ n && n ≤ 0x200A) || n == 0x2028 || n == 0x2029 || n == 0x202F ||
  n == 0x205F || n == 0x3000

/-- Drop leading whitespace from a character list. -/
def trimLeftChars (l : List Char) : List Char :=
  l.dropWhile goIsSpace

/-- Drop trailing whitespace from a character list. -/
def trimRightChars (l : List Char) : List Char :=
  (l.reverse.dropWhile goIsSpace).reverse

/-- Go `strings.TrimSpace`. -/
def goTrimSpace (s : String) : String :=
  ⟨trimRightChars (trimLeftChars s.data)⟩

/-- Go `strings.HasPrefix`. -/
def goHasPrefix (s p : String) : Bool :=
  p.data.isPrefixOf s.data

/-- Go `strings.HasSuffix`. -/
def goHasSuffix (s p : String) : Bool :=
  p.data.isSuffixOf s.data

/-- Go `strings.Contains`. -/
def goContains (s sub : String) : Bool :=
  decide (sub.data <:+: s.data)

/-- Go `strings.TrimSuffix`. -/
def goTrimSuffix (s p : String) : String :=
  if goHasSuffix s p then ⟨s.data.take (s.data.length - p.data.length)⟩ else s

/-! ## JSON values (`map[string]interface{}` / `[]interface{}` model) -/

/-- Dynamically-typed JSON value as produced by Go's `json.Unmarshal` into
`interface{}`.  Numbers are restricted to integers (every number this
program handles is an integer). -/
inductive JVal where
  | jnull
  | jbool (b : Bool)
  | jnum (n : Int)
  | jstr (s : String)
  | jarr (xs : List JVal)
  | jobj (fields : List (String × JVal))

/-- Lookup in a JSON object, modelling Go map indexing `m[k]`. -/
def mapGet (m : List (String × JVal)) (k : String) : Option JVal :=
  match m with
  | [] => none
  | (k', v) :: rest => if k' = k then some v else mapGet rest k

/-- Update-or-insert in a JSON object, modelling Go map assignment
`m[k] = v`. -/
def mapSet (m : List (String × JVal)) (k : String) (v : JVal) :
    List (String × JVal) :=
  match m with
  | [] => [(k, v)]
  | (k', v') :: rest =>
      if k' = k then (k', v) :: rest else (k', v') :: mapSet rest k v

/-! ## JSON parsing (Go `json.Unmarshal` into `interface{}`) -/

/-- Skip the JSON whitespace characters (space, tab, newline, carriage
return). -/
def skipWs (l : List Char) : List Char :=
  l.dropWhile (fun c => c == ' ' || c == '\t' || c == '\n' || c == '\r')

/-- Value of a decimal digit character list. -/
def digitsToNat (l : List Char) : Nat :=
  l.foldl (fun acc c => acc * 10 + (c.toNat - 48)) 0

/-- Hexadecimal digit value, or 16 when the character is not a hex
digit. -/
def hexVal (c : Char) : Nat :=
  if '0' ≤ c ∧ c ≤ '9' then c.toNat - 48
  else if 'a' ≤ c ∧ c ≤ 'f' then c.toNat - 87
  else if 'A' ≤ c ∧ c ≤ 'F' then c.toNat - 55
  else 16

/-- Parse the body of a JSON string literal (after the opening quote),
returning the decoded string and the remaining input.  Escapes are the
JSON ones; `\uXXXX` is decoded directly (surrogate pairs are not
combined; no input in this development uses them). -/
def parseStringBody : List Char → Option (String × List Char)
  | [] => none
  | '"' :: rest => some ("", rest)
  | '\\' :: 'u' :: a :: b :: c :: d :: rest =>
      let n := ((hexVal a * 16 + hexVal b) * 16 + hexVal c) * 16 + hexVal d
      if hexVal a < 16 ∧ hexVal b < 16 ∧ hexVal c < 16 ∧ hexVal d < 16 then
        if n.isValidChar then
          match parseStringBody rest with
          | some (s, r) => some (⟨Char.ofNat n :: s.data⟩, r)
          | none => none
        else none
      else none
  | '\\' :: e :: rest =>
      let dec : Option Char :=
        if e = '"' then some '"'
        else if e = '\\' then some '\\'
        else if e = '/' then some '/'
        else if e = 'b' then some (Char.ofNat 8)
        else if e = 'f' then some (Char.ofNat 12)
        else if e = 'n' then some '\n'
        else if e = 'r' then some '\r'
        else if e = 't' then some '\t'
        else none
      match dec with
      | none => none
      | some c =>
        match parseStringBody rest with
        | some (s, r) => some (⟨c :: s.data⟩, r)
        | none => none
  | c :: rest =>
      if c.toNat < 32 then none
      else
        match parseStringBody rest with
        | some (s, r) => some (⟨c :: s.data⟩, r)
        | none => none

/-- Parse a JSON integer literal (sign and digits; inputs with a
fractional or exponent part are rejected by this model). -/
def parseIntLit (l : List Char) : Option (Int × List Char) :=
  let (neg, l') : Bool × List Char :=
    match l with
    | '-' :: rest => (true, rest)
    | _ => (false, l)
  let ds := l'.takeWhile (fun c => '0' ≤ c ∧ c ≤ '9')
  let rest := l'.dropWhile (fun c => '0' ≤ c ∧ c ≤ '9')
  if ds.isEmpty then none
  else if ds.length > 1 ∧ ds.headD ' ' = '0' then none
  else
    match rest with
    | '.' :: _ => none
    | 'e' :: _ => none
    | 'E' :: _ => none
    | _ =>
      let n : Int := Int.ofNat (digitsToNat ds)
      some (if neg then -n else n, rest)

mutual

/-- Fuel-indexed recursive-descent parser for one JSON value. -/
def parseVal : Nat → List Char → Option (JVal × List Char)
  | 0, _ => none
  | fuel + 1, l =>
    match skipWs l with
    | 'n' :: 'u' :: 'l' :: 'l' :: rest => some (.jnull, rest)
    | 't' :: 'r' :: 'u' :: 'e' :: rest => some (.jbool true, rest)
    | 'f' :: 'a' :: 'l' :: 's' :: 'e' :: rest => some (.jbool false, rest)
    | '"' :: rest =>
        match parseStringBody rest with
        | some (s, r) => some (.jstr s, r)
        | none => none
    | '[' :: rest =>
        (match skipWs rest with
         | ']' :: r => some (.jarr [], r)
         | other => parseArrayItems fuel other [])
    | '{' :: rest =>
        (match skipWs rest with
         | '}' :: r => some (.jobj [], r)
         | other => parseObjFields fuel other [])
    | other =>
        match parseIntLit other with
        | some (n, rest) => some (.jnum n, rest)
        | none => none

/-- Parse the comma-separated items of a non-empty JSON array. -/
def parseArrayItems : Nat → List Char → List JVal →
    Option (JVal × List Char)
  | 0, _, _ => none
  | fuel + 1, l, acc =>
    match parseVal fuel l with
    | none => none
    | some (v, rest) =>
      match skipWs rest with
      | ',' :: r => parseArrayItems fuel r (acc ++ [v])
      | ']' :: r => some (.jarr (acc ++ [v]), r)
      | _ => none

/-- Parse the comma-separated fields of a non-empty JSON object; later
duplicate keys overwrite earlier ones, as Go map assignment does. -/
def parseObjFields : Nat → List Char → List (String × JVal) →
    Option (JVal × List Char)
  | 0, _, _ => none
  | fuel + 1, l, acc =>
    match skipWs l with
    | '"' :: rest =>
      (match parseStringBody rest with
       | none => none
       | some (k, r1) =>
         match skipWs r1 with
         | ':' :: r2 =>
           (match parseVal fuel r2 with
            | none => none
            | some (v, r3) =>
              let acc' := mapSet acc k v
              match skipWs r3 with
              | ',' :: r4 => parseObjFields fuel r4 acc'
              | '}' :: r4 => some (.jobj acc', r4)
              | _ => none)
         | _ => none)
    | _ => none

end

/-- Go `json.Unmarshal` on a whole input: one JSON value followed only by
whitespace. -/
def goJsonParse (s : String) : Option JVal :=
  match parseVal (2 * s.data.length + 8) s.data with
  | some (v, rest) => if (skipWs rest).isEmpty then some v else none
  | none => none

/-! ## JSON serialization (Go `json.Marshal`) -/

/-- Lowercase hexadecimal digit. -/
def hexDigit (n : Nat) : Char :=
  if n < 10 then Char.ofNat (48 + n) else Char.ofNat (87 + n % 16)

/-- Escape one character the way Go's `json.Marshal` does (HTML escaping
enabled, its default). -/
def escapeJsonChar (c : Char) : List Char :=
  if c = '"' then ['\\', '"']
  else if c = '\\' then ['\\', '\\']
  else if c = '\n' then ['\\', 'n']
  else if c = '\r' then ['\\', 'r']
  else if c = '\t' then ['\\', 't']
  else if c = '<' || c = '>' || c = '&' || c.toNat < 32 then
    ['\\', 'u', '0', '0', hexDigit (c.toNat / 16), hexDigit (c.toNat % 16)]
  else if c.toNat = 0x2028 || c.toNat = 0x2029 then
    ['\\', 'u', '2', '0', '2', hexDigit (c.toNat % 16)]
  else [c]

/-- Serialize a string literal with quotes. -/
def serializeStr (s : String) : List Char :=
  '"' :: s.data.foldr (fun c acc => escapeJsonChar c ++ acc) ['"']

/-- Byte-lexicographic order on character lists (on valid UTF-8 this
agrees with Go's byte-wise string order). -/
def charListLe : List Char → List Char → Bool
  | [], _ => true
  | _ :: _, [] => false
  | a :: as, b :: bs =>
    if a.toNat < b.toNat then true
    else if b.toNat < a.toNat then false
    else charListLe as bs

/-- Insert a field into a key-sorted field list (ascending key order, as
Go's `json.Marshal` emits map keys). -/
def insertField (p : String × JVal) :
    List (String × JVal) → List (String × JVal)
  | [] => [p]
  | q :: qs =>
    if charListLe p.1.data q.1.data then p :: q :: qs
    else q :: insertField p qs

/-- Insertion sort of object fields by key. -/
def sortFields : List (String × JVal) → List (String × JVal)
  | [] => []
  | p :: ps => insertField p (sortFields ps)

mutual

/-- Recursively sort every object's fields by key (the order in which Go
marshals maps). -/
def sortJson : JVal → JVal
  | .jnull => .jnull
  | .jbool b => .jbool b
  | .jnum n => .jnum n
  | .jstr s => .jstr s
  | .jarr xs => .jarr (sortJsonList xs)
  | .jobj fs => .jobj (sortFields (sortJsonFields fs))
termination_by structural v => v

/-- Recursive key-sorting inside array elements. -/
def sortJsonList : List JVal → List JVal
  | [] => []
  | x :: xs => sortJson x :: sortJsonList xs
termination_by structural l => l

/-- Recursive key-sorting inside field values. -/
def sortJsonFields : List (String × JVal) → List (String × JVal)
  | [] => []
  | (k, v) :: fs => (k, sortJson v) :: sortJsonFields fs
termination_by structural l => l

end

mutual

/-- Compact serialization of a JSON value whose objects are already
key-sorted. -/
def serializeVal : JVal → List Char
  | .jnull => ['n', 'u', 'l', 'l']
  | .jbool true => ['t', 'r', 'u', 'e']
  | .jbool false => ['f', 'a', 'l', 's', 'e']
  | .jnum n => (toString n).data
  | .jstr s => serializeStr s
  | .jarr xs => '[' :: serializeList xs ++ [']']
  | .jobj fs => '{' :: serializeFieldList fs ++ ['}']
termination_by structural v => v

/-- Comma-separated serialization of array elements. -/
def serializeList : List JVal → List Char
  | [] => []
  | [x] => serializeVal x
  | x :: y :: xs => serializeVal x ++ ',' :: serializeList (y :: xs)
termination_by structural l => l

/-- Comma-separated serialization of object fields. -/
def serializeFieldList : List (String × JVal) → List Char
  | [] => []
  | [(k, v)] => serializeStr k ++ ':' :: serializeVal v
  | (k, v) :: q :: fs =>
      serializeStr k ++ ':' :: serializeVal v ++ ',' :: serializeFieldList (q :: fs)
termination_by structural l => l

end

/-- Go `json.Marshal` of a dynamically-typed value: compact output, map
keys sorted ascending at every level. -/
def goJsonSerialize (v : JVal) : String :=
  ⟨serializeVal (sortJson v)⟩

/-! ## SSE line helpers (`streaming/sse.go`) -/

/-- Strip one trailing carriage return, as `bufio.ScanLines` does. -/
def dropTrailingCR (s : String) : String :=
  if goHasSuffix s "\r" then ⟨s.data.take (s.data.length - 1)⟩ else s

/-- Split a character list at every newline. -/
def splitNewlines : List Char → List (List Char)
  | [] => [[]]
  | '\n' :: rest => [] :: splitNewlines rest
  | c :: rest =>
    match splitNewlines rest with
    | l :: ls => (c :: l) :: ls
    | [] => [[c]]

/-- SSELineIterator: split an upstream body into SSE lines, dropping
lines that are blank after trimming (the Go code runs this as a producer
goroutine feeding a channel; the lines it yields are the same). -/
def SSELineIterator (body : String) : List String :=
  ((splitNewlines body.data).map (fun l => dropTrailingCR ⟨l⟩)).filter
    (fun l => goTrimSpace l ≠ "")

/-- IsDataLine from `sse.go`. -/
def IsDataLine (line : String) : Bool :=
  goHasPrefix line "data: "

/-- IsBlockedLine from `sse.go`. -/
def IsBlockedLine (line : String) : Bool :=
  goContains line "blockReason"

/-- Split a line at the first `{`: the part before it and the part from
it on, modelling `strings.Index(line, "{")` plus slicing; `none` when no
brace occurs. -/
def splitAtBrace (s : String) : Option (String × String) :=
  let rest := s.data.dropWhile (fun c => c ≠ '{')
  if rest.isEmpty then none
  else some (⟨s.data.takeWhile (fun c => c ≠ '{')⟩, ⟨rest⟩)

/-- ExtractFinishReason from `sse.go`: `candidates[0].finishReason` when
present and a string, `""` otherwise. -/
def ExtractFinishReason (line : String) : String :=
  if ¬ goContains line "finishReason" then ""
  else
    match splitAtBrace line with
    | none => ""
    | some (_, jsonPart) =>
      match goJsonParse jsonPart with
      | none => ""
      | some v =>
        match v with
        | .jobj m =>
          (match mapGet m "candidates" with
           | some (.jarr (c :: _)) =>
             (match c with
              | .jobj cm =>
                (match mapGet cm "finishReason" with
                 | some (.jstr fr) => fr
                 | _ => "")
              | _ => "")
           | _ => "")
        | _ => ""

/-- LineContent from `sse.go`. -/
structure LineContent where
  Text : String
  IsThought : Bool
deriving Repr, DecidableEq

/-- ParseLineContent from `sse.go`: text and thought flag of
`candidates[0].content.parts[0]`, with every absent or wrong-shaped step
yielding the all-default record. -/
def ParseLineContent (line : String) : LineContent :=
  if ¬ IsDataLine line then ⟨"", false⟩
  else
    match splitAtBrace line with
    | none => ⟨"", false⟩
    | some (_, jsonPart) =>
      match goJsonParse jsonPart with
      | none => ⟨"", false⟩
      | some v =>
        match v with
        | .jobj m =>
          (match mapGet m "candidates" with
           | some (.jarr (.jobj cm :: _)) =>
             (match mapGet cm "content" with
              | some (.jobj cont) =>
                (match mapGet cont "parts" with
                 | some (.jarr (.jobj pm :: _)) =>
                   let text := match mapGet pm "text" with
                     | some (.jstr t) => t
                     | _ => ""
                   let thought := match mapGet pm "thought" with
                     | some (.jbool b) => b
                     | _ => false
                   ⟨text, thought⟩
                 | _ => ⟨"", false⟩)
              | _ => ⟨"", false⟩)
           | _ => ⟨"", false⟩)
        | _ => ⟨"", false⟩

/-- Suffixes of `"[done]"` tried by RemoveDoneTokenFromLine, longest
first: `doneToken[len(doneToken)-i:]` for `i = 6, …, 1`. -/
def doneSuffixes : List String :=
  ["[done]", "done]", "one]", "ne]", "e]", "]"]

/-- First matching suffix removal of the `for i := len(doneToken); i > 0`
loop: the modified text, or the original when no suffix matches. -/
def removeDoneSuffix (originalText : String) : String :=
  match doneSuffixes.find? (fun suf => goHasSuffix originalText suf) with
  | some suf => goTrimSuffix originalText suf
  | none => originalText

/-- RemoveDoneTokenFromLine from `sse.go`: on a terminal data line whose
first part has a string text and no thought flag, trim the text and strip
the longest matching suffix of `"[done]"`, reserializing the JSON after
the original pre-brace bytes; on every other input return the line
unchanged. -/
def RemoveDoneTokenFromLine (line : String) (shouldRemove : Bool) : String :=
  if ¬ IsDataLine line || ¬ shouldRemove then line
  else
    match splitAtBrace line with
    | none => line
    | some (pre, jsonPart) =>
      match goJsonParse jsonPart with
      | none => line
      | some v =>
        match v with
        | .jobj m =>
          (match mapGet m "candidates" with
           | some (.jarr (.jobj cm :: restCands)) =>
             (match mapGet cm "content" with
              | some (.jobj cont) =>
                (match mapGet cont "parts" with
                 | some (.jarr (.jobj pm :: restParts)) =>
                   (match mapGet pm "text", mapGet pm "thought" with
                    | some (.jstr text), thoughtVal =>
                      let thought := match thoughtVal with
                        | some (.jbool b) => b
                        | _ => false
                      if thought then line
                      else
                        let originalText := goTrimSpace text
                        let modifiedText := removeDoneSuffix originalText
                        if originalText ≠ modifiedText then
                          let pm' := mapSet pm "text" (.jstr modifiedText)
                          let cont' := mapSet cont "parts"
                            (.jarr (.jobj pm' :: restParts))
                          let cm' := mapSet cm "content" (.jobj cont')
                          let m' := mapSet m "candidates"
                            (.jarr (.jobj cm' :: restCands))
                          pre ++ goJsonSerialize (.jobj m')
                        else line
                    | _, _ => line)
                 | _ => line)
              | _ => line)
           | _ => line)
        | _ => line

/-! ## Continuation Builder (`BuildRetryRequestBody` in `streaming/retry.go`) -/

/-- Continuation history inserted by BuildRetryRequestBody: a model
message carrying the accumulated text, then the fixed user instruction. -/
def retryHistory (accumulatedText : String) : List JVal :=
  [ .jobj [("role", .jstr "model"),
           ("parts", .jarr [.jobj [("text", .jstr accumulatedText)]])],
    .jobj [("role", .jstr "user"),
           ("parts", .jarr [.jobj [("text", .jstr
             "Continue exactly where you left off without any preamble or repetition.")]])] ]

/-- Whether a contents entry is a map with string role `"user"` (the
condition of the downward scan in BuildRetryRequestBody). -/
def isUserMessage : JVal → Bool
  | .jobj m =>
      (match mapGet m "role" with
       | some (.jstr r) => r = "user"
       | _ => false)
  | _ => false

/-- Index of the last user message, found by scanning from the end as the
Go loop does; `none` when there is none. -/
def lastUserIndex : List JVal → Option Nat
  | [] => none
  | c :: cs =>
    match lastUserIndex cs with
    | some i => some (i + 1)
    | none => if isUserMessage c then some 0 else none

/-- Contents list read off the body as `body["contents"].([]interface{})`
reads it: the array when present, `[]` on absence or wrong shape. -/
def contentsOf (body : List (String × JVal)) : List JVal :=
  match mapGet body "contents" with
  | some (.jarr l) => l
  | _ => []

/-- BuildRetryRequestBody from `retry.go`: copy the original body and
replace `contents` with the original contents plus the two-message
continuation history, inserted after the last user message or appended at
the end. -/
def BuildRetryRequestBody (originalBody : List (String × JVal))
    (accumulatedText : String) : List (String × JVal) :=
  let contents := contentsOf originalBody
  let history := retryHistory accumulatedText
  let newContents :=
    match lastUserIndex contents with
    | some i => contents.take (i + 1) ++ history ++ contents.drop (i + 1)
    | none => contents ++ history
  mapSet originalBody "contents" (.jarr newContents)

/-! ## Retry engine (`ProcessStreamAndRetryInternally` in `streaming/retry.go`) -/

/-- Statuses treated as fatal when observed on a continuation response
(`nonRetryableStatuses` in `retry.go`). -/
def nonRetryableStatuses (status : Nat) : Bool :=
  status == 400 || status == 401 || status == 403 || status == 404 ||
  status == 429

/-- Configuration options the retry engine reads. -/
structure Config where
  maxConsecutiveRetries : Nat
  swallowThoughtsAfterRetry : Bool
deriving Repr, DecidableEq

/-- Session state of the retry engine.  `output` is the ordered list of
writes sent to the client.  `reasons` and `issueCounts` are ghost
observations that do not influence control flow: every interruption
reason the engine raises, and the value of `consecutiveRetryCount` at
each continuation request handed to the upstream. -/
structure EngState where
  accumulatedText : String
  consecutiveRetryCount : Nat
  isOutputtingFormalText : Bool
  swallowModeActive : Bool
  output : List String
  reasons : List String
  issueCounts : List Nat
deriving Repr, DecidableEq

/-- Result of processing one SSE line inside the read loop. -/
inductive LineResult where
  | proceed (st : EngState)
  | interrupted (st : EngState) (reason : String)
  | finished (st : EngState)
deriving Repr, DecidableEq

/-- Record the engine reads off a line: parsed content for `data: `
lines, the all-default record otherwise (the `if IsDataLine(line)` block
opening the loop body). -/
def classifyLine (line : String) : LineContent :=
  if IsDataLine line then ParseLineContent line else ⟨"", false⟩

/-- One iteration of the `for line := range lineCh` loop of
`ProcessStreamAndRetryInternally`: the swallow gate, the retry-decision
ladder, and the forward step. -/
def processLine (st : EngState) (line : String) : LineResult :=
  let content := classifyLine line
  let textChunk := content.Text
  let isThought := content.IsThought
  if st.swallowModeActive ∧ isThought then
    if ExtractFinishReason line ≠ "" then
      .interrupted st "FINISH_DURING_THOUGHT"
    else
      .proceed st
  else
    let st := { st with swallowModeActive := false }
    let finishReason := ExtractFinishReason line
    let trimmedText := goTrimSpace (st.accumulatedText ++ textChunk)
    if finishReason ≠ "" ∧ isThought then
      .interrupted st "FINISH_DURING_THOUGHT"
    else if IsBlockedLine line then
      .interrupted st "BLOCK"
    else if finishReason = "STOP" ∧ trimmedText.data.length = 0 then
      .interrupted st "FINISH_EMPTY_RESPONSE"
    else if finishReason = "STOP" ∧ ¬ goHasSuffix trimmedText "[done]" then
      .interrupted st "FINISH_INCOMPLETE"
    else if finishReason ≠ "" ∧ finishReason ≠ "MAX_TOKENS" ∧
        finishReason ≠ "STOP" then
      .interrupted st "FINISH_ABNORMAL"
    else
      let isEndOfResponse := finishReason == "STOP" || finishReason == "MAX_TOKENS"
      let processedLine := RemoveDoneTokenFromLine line isEndOfResponse
      let st := { st with output := st.output ++ [processedLine ++ "\n\n"] }
      let st :=
        if textChunk ≠ "" ∧ ¬ isThought then
          { st with isOutputtingFormalText := true,
                    accumulatedText := st.accumulatedText ++ textChunk }
        else st
      if isEndOfResponse then .finished st else .proceed st

/-- How one pass over the current upstream reader ended. -/
inductive PassOutcome where
  | clean
  | interrupted (reason : String)
deriving Repr, DecidableEq

/-- Run the read loop over the remaining lines of the current reader.
Returns the pass outcome, the state after the pass, and the lines not yet
consumed when the loop broke (a reader read past its end yields nothing,
so an exhausted reader re-entered later produces an immediate DROP, like
the Go code re-scanning a drained body). -/
def processLines (st : EngState) : List String →
    PassOutcome × EngState × List String
  | [] => (.interrupted "DROP", st, [])
  | line :: rest =>
    match processLine st line with
    | .proceed st' => processLines st' rest
    | .interrupted st' reason => (.interrupted reason, st', rest)
    | .finished st' => (.clean, st', rest)

/-- Result of one continuation attempt as the upstream delivers it:
either a transport-level failure (request marshalling, request creation,
or `client.Do` failing) or an HTTP response with a status and body. -/
inductive Attempt where
  | transportFail
  | response (status : Nat) (body : String)
deriving Repr, DecidableEq

/-- Error payload written when the retry budget is exhausted, exactly as
`retry.go` builds it. -/
def budgetErrorPayload (maxRetries : Nat) (reason : String)
    (accumulatedText : String) : JVal :=
  .jobj [("error", .jobj
    [ ("code", .jnum 504),
      ("status", .jstr "DEADLINE_EXCEEDED"),
      ("message", .jstr ("Retry limit (" ++ toString maxRetries ++
        ") exceeded after stream interruption. Last reason: " ++ reason ++ ".")),
      ("details", .jarr [.jobj
        [ ("@type", .jstr "proxy.debug"),
          ("accumulated_text_chars",
            .jnum (Int.ofNat accumulatedText.utf8ByteSize)) ]]) ])]

/-- SSE error frame for budget exhaustion:
`event: error` plus the marshalled payload and the record terminator. -/
def budgetErrorFrame (maxRetries : Nat) (reason : String)
    (accumulatedText : String) : String :=
  "event: error\ndata: " ++
    goJsonSerialize (budgetErrorPayload maxRetries reason accumulatedText) ++
    "\n\n"

/-- SSE error frame for a fatal status during retry: the upstream body is
embedded verbatim. -/
def upstreamErrorFrame (body : String) : String :=
  "event: error\ndata: " ++ body ++ "\n\n"

/-- Record a raised interruption reason (ghost). -/
def pushReason (st : EngState) (reason : String) : EngState :=
  { st with reasons := st.reasons ++ [reason] }

/-- Swallow-mode arming on interruption: set when the option is enabled
and formal text has been output, otherwise left unchanged. -/
def armSwallow (cfg : Config) (st : EngState) : EngState :=
  if cfg.swallowThoughtsAfterRetry ∧ st.isOutputtingFormalText then
    { st with swallowModeActive := true }
  else st

/-- Record the retry counter at a continuation issue (ghost). -/
def recordIssue (st : EngState) : EngState :=
  { st with issueCounts := st.issueCounts ++ [st.consecutiveRetryCount] }

/-- Final outcome of a session: clean completion (`return nil`), failure
(`return err`), or the supply of modelled continuation-attempt results
ran out while the engine was about to issue another one. -/
inductive Outcome where
  | done (st : EngState)
  | failed (st : EngState) (msg : String)
  | outOfAttempts (st : EngState)
deriving Repr, DecidableEq

/-- State carried by an outcome. -/
def outcomeState : Outcome → EngState
  | .done st => st
  | .failed st _ => st
  | .outOfAttempts st => st

/-- Append one frame to the client output. -/
def appendOutput (st : EngState) (frame : String) : EngState :=
  { st with output := st.output ++ [frame] }

/-- Increment the consecutive retry counter. -/
def bumpRetry (st : EngState) : EngState :=
  { st with consecutiveRetryCount := st.consecutiveRetryCount + 1 }

/-- Result of one pass of the outer loop up to the point where a
continuation request would be issued: either the session ends (clean
completion, or budget exhaustion with its error frame), or the engine is
about to issue a continuation with the bumped state and the unread
remainder of the current reader. -/
inductive StepRes where
  | terminal (o : Outcome)
  | wantAttempt (st : EngState) (leftover : List String)
deriving Repr, DecidableEq

/-- One iteration of the outer loop of ProcessStreamAndRetryInternally,
from reading the current upstream body through interruption handling
(swallow-mode arming, budget check, counter increment), stopping where
the continuation request is issued. -/
def passStep (cfg : Config) (st : EngState) (reader : List String) :
    StepRes :=
  match processLines st reader with
  | (.clean, st1, _) => .terminal (.done st1)
  | (.interrupted reason, st1, leftover) =>
    let st2 := armSwallow cfg (pushReason st1 reason)
    if cfg.maxConsecutiveRetries ≤ st2.consecutiveRetryCount then
      .terminal (.failed
        (appendOutput st2 (budgetErrorFrame cfg.maxConsecutiveRetries reason
          st2.accumulatedText))
        "retry limit exceeded")
    else
      .wantAttempt (bumpRetry st2) leftover

/-- Main loop of ProcessStreamAndRetryInternally.  `reader` is the
remaining lines of the current upstream body; `attempts` supplies the
result of each continuation request in order.  Each loop iteration that
issues a continuation consumes one attempt, so the recursion is
structural on `attempts`; a continuation attempt that fails at the
transport level or with a retryable non-200 status loops back into the
outer loop with the reader unchanged, exactly as the `continue`
statements of the Go loop do. -/
def runSession (cfg : Config) (st : EngState) (reader : List String) :
    List Attempt → Outcome
  | [] =>
    (match passStep cfg st reader with
     | .terminal o => o
     | .wantAttempt st3 _ => .outOfAttempts st3)
  | attempt :: rest =>
    match passStep cfg st reader with
    | .terminal o => o
    | .wantAttempt st3 leftover =>
      match attempt with
      | .transportFail => runSession cfg (recordIssue st3) leftover rest
      | .response status body =>
        let st4 := recordIssue st3
        if nonRetryableStatuses status then
          .failed (appendOutput st4 (upstreamErrorFrame body))
            ("non-retryable error: " ++ toString status)
        else if status ≠ 200 then
          runSession cfg st4 leftover rest
        else
          runSession cfg st4 (SSELineIterator body) rest

/-- Fresh session state at engine entry. -/
def initialState : EngState :=
  { accumulatedText := ""
    consecutiveRetryCount := 0
    isOutputtingFormalText := false
    swallowModeActive := false
    output := []
    reasons := []
    issueCounts := [] }

/-- ProcessStreamAndRetryInternally: run a session over the initial
upstream body with the given continuation-attempt results. -/
def ProcessStreamAndRetryInternally (cfg : Config) (initialBody : String)
    (attempts : List Attempt) : Outcome :=
  runSession cfg initialState (SSELineIterator initialBody) attempts

/-- Text fields a client extracts from the forwarded frames. -/
def observedTexts (output : List String) : List String :=
  output.map (fun f => (ParseLineContent f).Text)

/-- State carried by a line result. -/
def lineResultState : LineResult → EngState
  | .proceed st => st
  | .interrupted st _ => st
  | .finished st => st

/-- Agreement of retry counter and ghost fields between a state and the
state carried by a line result. -/
def ghostEq (st : EngState) (res : LineResult) : Prop :=
  (lineResultState res).consecutiveRetryCount = st.consecutiveRetryCount ∧
  (lineResultState res).reasons = st.reasons ∧
  (lineResultState res).issueCounts = st.issueCounts

/-! ## Basic state lemmas -/

@[simp] lemma pushReason_count (st : EngState) (r : String) :
    (pushReason st r).consecutiveRetryCount = st.consecutiveRetryCount := rfl

@[simp] lemma pushReason_acc (st : EngState) (r : String) :
    (pushReason st r).accumulatedText = st.accumulatedText := rfl

@[simp] lemma pushReason_out (st : EngState) (r : String) :
    (pushReason st r).output = st.output := rfl

@[simp] lemma pushReason_reasons (st : EngState) (r : String) :
    (pushReason st r).reasons = st.reasons ++ [r] := rfl

@[simp] lemma pushReason_issues (st : EngState) (r : String) :
    (pushReason st r).issueCounts = st.issueCounts := rfl

@[simp] lemma armSwallow_count (cfg : Config) (st : EngState) :
    (armSwallow cfg st).consecutiveRetryCount = st.consecutiveRetryCount := by
  unfold armSwallow; split <;> rfl

@[simp] lemma armSwallow_acc (cfg : Config) (st : EngState) :
    (armSwallow cfg st).accumulatedText = st.accumulatedText := by
  unfold armSwallow; split <;> rfl

@[simp] lemma armSwallow_out (cfg : Config) (st : EngState) :
    (armSwallow cfg st).output = st.output := by
  unfold armSwallow; split <;> rfl

@[simp] lemma armSwallow_reasons (cfg : Config) (st : EngState) :
    (armSwallow cfg st).reasons = st.reasons := by
  unfold armSwallow; split <;> rfl

@[simp] lemma armSwallow_issues (cfg : Config) (st : EngState) :
    (armSwallow cfg st).issueCounts = st.issueCounts := by
  unfold armSwallow; split <;> rfl

@[simp] lemma armSwallow_formal (cfg : Config) (st : EngState) :
    (armSwallow cfg st).isOutputtingFormalText = st.isOutputtingFormalText := by
  unfold armSwallow; split <;> rfl

lemma armSwallow_swallow (cfg : Config) (st : EngState) :
    (armSwallow cfg st).swallowModeActive =
      (st.swallowModeActive ||
        (cfg.swallowThoughtsAfterRetry && st.isOutputtingFormalText)) := by
  rcases hsw : cfg.swallowThoughtsAfterRetry <;>
    rcases hout : st.isOutputtingFormalText <;>
    simp [armSwallow, hsw, hout]

@[simp] lemma recordIssue_count (st : EngState) :
    (recordIssue st).consecutiveRetryCount = st.consecutiveRetryCount := rfl

@[simp] lemma recordIssue_reasons (st : EngState) :
    (recordIssue st).reasons = st.reasons := rfl

@[simp] lemma recordIssue_issues (st : EngState) :
    (recordIssue st).issueCounts =
      st.issueCounts ++ [st.consecutiveRetryCount] := rfl

@[simp] lemma bumpRetry_count (st : EngState) :
    (bumpRetry st).consecutiveRetryCount = st.consecutiveRetryCount + 1 := rfl

@[simp] lemma bumpRetry_reasons (st : EngState) :
    (bumpRetry st).reasons = st.reasons := rfl

@[simp] lemma appendOutput_count (st : EngState) (f : String) :
    (appendOutput st f).consecutiveRetryCount = st.consecutiveRetryCount := rfl

@[simp] lemma lineResultState_proceed (st : EngState) :
    lineResultState (.proceed st) = st := rfl

@[simp] lemma lineResultState_interrupted (st : EngState) (r : String) :
    lineResultState (.interrupted st r) = st := rfl

@[simp] lemma lineResultState_finished (st : EngState) :
    lineResultState (.finished st) = st := rfl

/-- Processing one line never touches the retry counter nor the ghost
observations. -/
lemma processLine_ghost (st : EngState) (line : String) :
    ghostEq st (processLine st line) := by
  unfold processLine ghostEq
  simp only [apply_ite lineResultState, lineResultState_proceed,
    lineResultState_interrupted, lineResultState_finished,
    apply_ite EngState.consecutiveRetryCount, apply_ite EngState.reasons,
    apply_ite EngState.issueCounts]
  simp

/-- A pass over the reader never touches the retry counter nor the ghost
observations. -/
lemma processLines_ghost (lines : List String) : ∀ st : EngState,
    ((processLines st lines).2.1.consecutiveRetryCount
        = st.consecutiveRetryCount) ∧
    ((processLines st lines).2.1.reasons = st.reasons) ∧
    ((processLines st lines).2.1.issueCounts = st.issueCounts) := by
  induction lines with
  | nil => intro st; simp [processLines]
  | cons line rest ih =>
    intro st
    have hg := processLine_ghost st line
    rcases h : processLine st line with st' | ⟨st', r⟩ | st' <;>
      rw [h] at hg <;> simp [ghostEq] at hg <;>
      simp [processLines, h]
    · rcases ih st' with ⟨h1, h2, h3⟩
      exact ⟨h1.trans hg.1, h2.trans hg.2.1, h3.trans hg.2.2⟩
    · exact hg
    · exact hg

/-! ## Unfolding lemmas for the session loop -/

lemma passStep_clean (cfg : Config) (st st1 : EngState)
    (reader leftover : List String)
    (h : processLines st reader = (.clean, st1, leftover)) :
    passStep cfg st reader = .terminal (.done st1) := by
  unfold passStep; rw [h]

lemma passStep_budget (cfg : Config) (st st1 : EngState) (reason : String)
    (reader leftover : List String)
    (h : processLines st reader = (.interrupted reason, st1, leftover))
    (hb : cfg.maxConsecutiveRetries ≤ st1.consecutiveRetryCount) :
    passStep cfg st reader = .terminal (.failed
      (appendOutput (armSwallow cfg (pushReason st1 reason))
        (budgetErrorFrame cfg.maxConsecutiveRetries reason
          st1.accumulatedText))
      "retry limit exceeded") := by
  unfold passStep
  rw [h]
  simp only [armSwallow_count, pushReason_count, armSwallow_acc,
    pushReason_acc, if_pos hb]

lemma passStep_want (cfg : Config) (st st1 : EngState) (reason : String)
    (reader leftover : List String)
    (h : processLines st reader = (.interrupted reason, st1, leftover))
    (hb : ¬ cfg.maxConsecutiveRetries ≤ st1.consecutiveRetryCount) :
    passStep cfg st reader = .wantAttempt
      (bumpRetry (armSwallow cfg (pushReason st1 reason))) leftover := by
  unfold passStep
  rw [h]
  simp only [armSwallow_count, pushReason_count, if_neg hb]

lemma runSession_terminal (cfg : Config) (st : EngState)
    (reader : List String) (attempts : List Attempt) (o : Outcome)
    (h : passStep cfg st reader = .terminal o) :
    runSession cfg st reader attempts = o := by
  cases attempts with
  | nil => simp [runSession, h]
  | cons a rest => simp [runSession, h]

lemma runSession_want_nil (cfg : Config) (st st3 : EngState)
    (reader leftover : List String)
    (h : passStep cfg st reader = .wantAttempt st3 leftover) :
    runSession cfg st reader [] = .outOfAttempts st3 := by
  simp [runSession, h]

lemma runSession_want_transport (cfg : Config) (st st3 : EngState)
    (reader leftover : List String) (rest : List Attempt)
    (h : passStep cfg st reader = .wantAttempt st3 leftover) :
    runSession cfg st reader (.transportFail :: rest) =
      runSession cfg (recordIssue st3) leftover rest := by
  simp [runSession, h]

lemma runSession_want_fatal (cfg : Config) (st st3 : EngState)
    (reader leftover : List String) (rest : List Attempt)
    (status : Nat) (body : String)
    (h : passStep cfg st reader = .wantAttempt st3 leftover)
    (hs : nonRetryableStatuses status = true) :
    runSession cfg st reader (.response status body :: rest) =
      .failed (appendOutput (recordIssue st3) (upstreamErrorFrame body))
        ("non-retryable error: " ++ toString status) := by
  simp [runSession, h, hs]

lemma runSession_want_non200 (cfg : Config) (st st3 : EngState)
    (reader leftover : List String) (rest : List Attempt)
    (status : Nat) (body : String)
    (h : passStep cfg st reader = .wantAttempt st3 leftover)
    (hs : nonRetryableStatuses status = false) (h200 : status ≠ 200) :
    runSession cfg st reader (.response status body :: rest) =
      runSession cfg (recordIssue st3) leftover rest := by
  simp [runSession, h, hs, h200]

lemma runSession_want_200 (cfg : Config) (st st3 : EngState)
    (reader leftover : List String) (rest : List Attempt) (body : String)
    (h : passStep cfg st reader = .wantAttempt st3 leftover) :
    runSession cfg st reader (.response 200 body :: rest) =
      runSession cfg (recordIssue st3) (SSELineIterator body) rest := by
  simp [runSession, h, nonRetryableStatuses]

/-! ## Retry-counter invariants -/

/-- Counter bookkeeping of one outer-loop pass: a terminal outcome keeps
the counter of the entering state, and a continuation is only issued
after one increment taken strictly under the budget. -/
lemma passStep_count (cfg : Config) (st : EngState) (reader : List String) :
    (∀ o, passStep cfg st reader = .terminal o →
      (outcomeState o).consecutiveRetryCount = st.consecutiveRetryCount) ∧
    (∀ st3 l, passStep cfg st reader = .wantAttempt st3 l →
      st3.consecutiveRetryCount = st.consecutiveRetryCount + 1 ∧
      st.consecutiveRetryCount < cfg.maxConsecutiveRetries) := by
  have hg := processLines_ghost reader st
  rcases hp : processLines st reader with ⟨po, st1, leftover⟩
  rw [hp] at hg
  unfold passStep
  rw [hp]
  cases po with
  | clean =>
    refine ⟨fun o ho => ?_, fun st3 l h3 => by simp at h3⟩
    simp only [StepRes.terminal.injEq] at ho
    subst ho
    simpa [outcomeState] using hg.1
  | interrupted reason =>
    simp only [armSwallow_count, pushReason_count]
    by_cases hb : cfg.maxConsecutiveRetries ≤ st1.consecutiveRetryCount
    · refine ⟨fun o ho => ?_, fun st3 l h3 => ?_⟩
      · simp only [if_pos hb, StepRes.terminal.injEq] at ho
        subst ho
        simpa [outcomeState, appendOutput] using hg.1
      · simp [if_pos hb] at h3
    · refine ⟨fun o ho => by simp [if_neg hb] at ho, fun st3 l h3 => ?_⟩
      simp only [if_neg hb, StepRes.wantAttempt.injEq] at h3
      rcases h3 with ⟨h3, _⟩
      subst h3
      simp only [bumpRetry_count, armSwallow_count, pushReason_count]
      have hc : st1.consecutiveRetryCount = st.consecutiveRetryCount := by
        simpa using hg.1
      rw [hc] at hb ⊢
      exact ⟨rfl, by omega⟩

/-- Over a whole session run the retry counter only grows, and it stays
within the configured maximum whenever it starts there. -/
lemma runSession_count (cfg : Config) (attempts : List Attempt) :
    ∀ (st : EngState) (reader : List String),
    st.consecutiveRetryCount ≤
        (outcomeState (runSession cfg st reader attempts)).consecutiveRetryCount ∧
    (st.consecutiveRetryCount ≤ cfg.maxConsecutiveRetries →
      (outcomeState (runSession cfg st reader attempts)).consecutiveRetryCount ≤
        cfg.maxConsecutiveRetries) := by
  induction attempts with
  | nil =>
    intro st reader
    rcases hps : passStep cfg st reader with o | ⟨st3, l⟩
    · rw [runSession_terminal cfg st reader [] o hps]
      have := (passStep_count cfg st reader).1 o hps
      omega
    · rw [runSession_want_nil cfg st st3 reader l hps]
      have := (passStep_count cfg st reader).2 st3 l hps
      simp only [outcomeState]
      omega
  | cons a rest ih =>
    intro st reader
    rcases hps : passStep cfg st reader with o | ⟨st3, l⟩
    · rw [runSession_terminal cfg st reader _ o hps]
      have := (passStep_count cfg st reader).1 o hps
      omega
    · have h3 := (passStep_count cfg st reader).2 st3 l hps
      cases a with
      | transportFail =>
        rw [runSession_want_transport cfg st st3 reader l rest hps]
        have hrec := ih (recordIssue st3) l
        simp only [recordIssue_count] at hrec
        omega
      | response status body =>
        by_cases hs : nonRetryableStatuses status = true
        · rw [runSession_want_fatal cfg st st3 reader l rest status body hps hs]
          simp only [outcomeState, appendOutput_count, recordIssue_count]
          omega
        · by_cases h200 : status = 200
          · subst h200
            rw [runSession_want_200 cfg st st3 reader l rest body hps]
            have hrec := ih (recordIssue st3) (SSELineIterator body)
            simp only [recordIssue_count] at hrec
            omega
          · rw [runSession_want_non200 cfg st st3 reader l rest status body hps
              (by simpa using hs) h200]
            have hrec := ih (recordIssue st3) l
            simp only [recordIssue_count] at hrec
            omega

/-! ## Claims -/

/-- C4: for every session and every reachable state of the retry engine,
`consecutiveRetryCount` starts at 0, is only ever incremented (it never
decreases across a run), and never exceeds `maxConsecutiveRetries`: when
an interruption occurs with `consecutiveRetryCount ≥
maxConsecutiveRetries` the session fails instead of incrementing. -/
theorem claim_C4_retry_counter_invariant :
    initialState.consecutiveRetryCount = 0 ∧
    (∀ (cfg : Config) (st : EngState) (reader : List String)
        (attempts : List Attempt),
      st.consecutiveRetryCount ≤
        (outcomeState (runSession cfg st reader attempts)).consecutiveRetryCount) ∧
    (∀ (cfg : Config) (st : EngState) (reader : List String)
        (attempts : List Attempt),
      st.consecutiveRetryCount ≤ cfg.maxConsecutiveRetries →
      (outcomeState (runSession cfg st reader attempts)).consecutiveRetryCount ≤
        cfg.maxConsecutiveRetries) ∧
    (∀ (cfg : Config) (st st1 : EngState) (reader leftover : List String)
        (attempts : List Attempt) (reason : String),
      processLines st reader = (.interrupted reason, st1, leftover) →
      cfg.maxConsecutiveRetries ≤ st1.consecutiveRetryCount →
      ∃ stf msg, runSession cfg st reader attempts = .failed stf msg ∧
        stf.consecutiveRetryCount = st1.consecutiveRetryCount) := by
  refine ⟨rfl, fun cfg st reader attempts => (runSession_count cfg attempts st reader).1,
    fun cfg st reader attempts => (runSession_count cfg attempts st reader).2,
    fun cfg st st1 reader leftover attempts reason hp hb => ?_⟩
  have hps := passStep_budget cfg st st1 reason reader leftover hp
    (by simpa using hb)
  rw [runSession_terminal cfg st reader attempts _ hps]
  exact ⟨_, _, rfl, by simp [appendOutput]⟩

/-- C4 witness: at a concrete configuration the counter stays within the
maximum, and a pass interrupted at the budget limit fails without
incrementing. -/
theorem claim_C4_retry_counter_invariant_witness :
    (outcomeState (runSession ⟨2, false⟩ initialState []
        [.transportFail])).consecutiveRetryCount ≤ 2 ∧
    (∃ stf msg, runSession ⟨0, false⟩ initialState [] [] = .failed stf msg ∧
      stf.consecutiveRetryCount = initialState.consecutiveRetryCount) := by
  refine ⟨claim_C4_retry_counter_invariant.2.2.1 ⟨2, false⟩ initialState []
    [.transportFail] (by decide), ?_⟩
  exact claim_C4_retry_counter_invariant.2.2.2 ⟨0, false⟩ initialState
    initialState [] [] [] "DROP" (by decide) (by decide)

/-- C5: when the retry budget is exhausted — an interruption with
`consecutiveRetryCount ≥ maxConsecutiveRetries` — the client receives
exactly one more frame, `event: error` followed by a data line carrying
the marshalled payload and the blank-line terminator; the payload's
`error` object has code 504, status DEADLINE_EXCEEDED, the claimed
message with the configured maximum and the last interruption reason, and
`details[0].accumulated_text_chars` equal to the byte length of the
accumulated text; the session then fails. -/
theorem claim_C5_budget_exhaustion_error_frame :
    (∀ (cfg : Config) (st st1 : EngState) (reader leftover : List String)
        (attempts : List Attempt) (reason : String),
      processLines st reader = (.interrupted reason, st1, leftover) →
      cfg.maxConsecutiveRetries ≤ st1.consecutiveRetryCount →
      runSession cfg st reader attempts =
        .failed (appendOutput (armSwallow cfg (pushReason st1 reason))
            (budgetErrorFrame cfg.maxConsecutiveRetries reason
              st1.accumulatedText))
          "retry limit exceeded") ∧
    (∀ (maxRetries : Nat) (reason acc : String),
      budgetErrorFrame maxRetries reason acc =
        "event: error\ndata: " ++
          goJsonSerialize (budgetErrorPayload maxRetries reason acc) ++
          "\n\n") ∧
    (∀ (maxRetries : Nat) (reason acc : String), ∃ ef,
      budgetErrorPayload maxRetries reason acc = .jobj [("error", .jobj ef)] ∧
      mapGet ef "code" = some (.jnum 504) ∧
      mapGet ef "status" = some (.jstr "DEADLINE_EXCEEDED") ∧
      mapGet ef "message" = some (.jstr ("Retry limit (" ++
        toString maxRetries ++
        ") exceeded after stream interruption. Last reason: " ++ reason ++
        ".")) ∧
      mapGet ef "details" = some (.jarr [.jobj
        [("@type", .jstr "proxy.debug"),
         ("accumulated_text_chars",
           .jnum (Int.ofNat acc.utf8ByteSize))]])) := by
  refine ⟨fun cfg st st1 reader leftover attempts reason hp hb => ?_,
    fun maxRetries reason acc => rfl,
    fun maxRetries reason acc => ⟨_, rfl, rfl, rfl, rfl, rfl⟩⟩
  have hps := passStep_budget cfg st st1 reason reader leftover hp
    (by simpa using hb)
  exact runSession_terminal cfg st reader attempts _ hps

/-- C5 witness: at a concrete exhausted-budget session the failure
carries exactly the claimed frame. -/
theorem claim_C5_budget_exhaustion_error_frame_witness :
    runSession ⟨0, false⟩ initialState [] [] =
      .failed (appendOutput (armSwallow ⟨0, false⟩
          (pushReason initialState "DROP"))
          (budgetErrorFrame 0 "DROP" ""))
        "retry limit exceeded" ∧
    budgetErrorFrame 0 "DROP" "" =
      "event: error\ndata: " ++
        goJsonSerialize (budgetErrorPayload 0 "DROP" "") ++ "\n\n" := by
  exact ⟨claim_C5_budget_exhaustion_error_frame.1 ⟨0, false⟩ initialState
      initialState [] [] [] "DROP" (by decide) (by decide),
    claim_C5_budget_exhaustion_error_frame.2.1 0 "DROP" ""⟩

/-- C7: a continuation response whose status is one of
{400, 401, 403, 404, 429} makes the engine emit exactly one
`event: error` frame whose data line is the upstream body verbatim and
fail the session with no further continuation requests (the remaining
attempt supply is never consulted and the issue log is not extended
past the already-issued attempt); any other non-200 status does not end
the session there — the engine loops back with the remaining attempts. -/
theorem claim_C7_fatal_statuses_during_retry :
    (∀ status : Nat, nonRetryableStatuses status = true ↔
      (status = 400 ∨ status = 401 ∨ status = 403 ∨ status = 404 ∨
        status = 429)) ∧
    (∀ body : String, upstreamErrorFrame body =
      "event: error\ndata: " ++ body ++ "\n\n") ∧
    (∀ (cfg : Config) (st st3 : EngState) (reader leftover : List String)
        (rest : List Attempt) (status : Nat) (body : String),
      passStep cfg st reader = .wantAttempt st3 leftover →
      nonRetryableStatuses status = true →
      runSession cfg st reader (.response status body :: rest) =
        .failed (appendOutput (recordIssue st3) (upstreamErrorFrame body))
          ("non-retryable error: " ++ toString status)) ∧
    (∀ (cfg : Config) (st st3 : EngState) (reader leftover : List String)
        (rest : List Attempt) (status : Nat) (body : String),
      passStep cfg st reader = .wantAttempt st3 leftover →
      nonRetryableStatuses status = false → status ≠ 200 →
      runSession cfg st reader (.response status body :: rest) =
        runSession cfg (recordIssue st3) leftover rest) := by
  refine ⟨fun status => by constructor <;> (intro h; simp [nonRetryableStatuses] at h ⊢; omega),
    fun body => rfl,
    fun cfg st st3 reader leftover rest status body hps hs =>
      runSession_want_fatal cfg st st3 reader leftover rest status body hps hs,
    fun cfg st st3 reader leftover rest status body hps hs h200 =>
      runSession_want_non200 cfg st st3 reader leftover rest status body hps hs h200⟩

/-- C7 witness: with a drop followed by a 401 continuation response the
session fails with the upstream body echoed in the error frame, while a
500 continuation response loops back into the session. -/
theorem claim_C7_fatal_statuses_during_retry_witness :
    nonRetryableStatuses 401 = true ∧
    runSession ⟨5, false⟩ initialState []
        [.response 401 "\x7b\"error\":\x7b\"code\":401,\"message\":\"bad key\"\x7d\x7d"] =
      .failed (appendOutput
          (recordIssue (bumpRetry (armSwallow ⟨5, false⟩
            (pushReason initialState "DROP"))))
          (upstreamErrorFrame
            "\x7b\"error\":\x7b\"code\":401,\"message\":\"bad key\"\x7d\x7d"))
        ("non-retryable error: " ++ toString 401) ∧
    runSession ⟨5, false⟩ initialState [] [.response 500 "oops"] =
      runSession ⟨5, false⟩
        (recordIssue (bumpRetry (armSwallow ⟨5, false⟩
          (pushReason initialState "DROP")))) [] [] := by
  refine ⟨by decide, ?_, ?_⟩
  · exact claim_C7_fatal_statuses_during_retry.2.2.1 ⟨5, false⟩ initialState
      (bumpRetry (armSwallow ⟨5, false⟩ (pushReason initialState "DROP")))
      [] [] [] 401 "\x7b\"error\":\x7b\"code\":401,\"message\":\"bad key\"\x7d\x7d"
      (by decide) (by decide)
  · exact claim_C7_fatal_statuses_during_retry.2.2.2 ⟨5, false⟩ initialState
      (bumpRetry (armSwallow ⟨5, false⟩ (pushReason initialState "DROP")))
      [] [] [] 500 "oops" (by decide) (by decide) (by decide)

/-- C6: with the swallow-thoughts option enabled, `swallowModeActive` is
set at interruption handling exactly when formal text has been output
(and stays set if already set); while it is active a thought record is
discarded — the state, output, and accumulated text are untouched — a
discarded thought record carrying a non-empty finish reason raises
FINISH_DURING_THOUGHT, and the first non-thought record is processed
exactly as it would be with swallow mode cleared. -/
theorem claim_C6_swallow_mode :
    (∀ (cfg : Config) (st : EngState),
      (armSwallow cfg st).swallowModeActive =
        (st.swallowModeActive ||
          (cfg.swallowThoughtsAfterRetry && st.isOutputtingFormalText))) ∧
    (∀ (cfg : Config) (st st1 : EngState) (reason : String)
        (reader leftover : List String),
      processLines st reader = (.interrupted reason, st1, leftover) →
      ¬ cfg.maxConsecutiveRetries ≤ st1.consecutiveRetryCount →
      passStep cfg st reader = .wantAttempt
        (bumpRetry (armSwallow cfg (pushReason st1 reason))) leftover) ∧
    (∀ (st : EngState) (line : String),
      st.swallowModeActive = true →
      (classifyLine line).IsThought = true →
      ExtractFinishReason line = "" →
      processLine st line = .proceed st) ∧
    (∀ (st : EngState) (line : String),
      st.swallowModeActive = true →
      (classifyLine line).IsThought = true →
      ExtractFinishReason line ≠ "" →
      processLine st line = .interrupted st "FINISH_DURING_THOUGHT") ∧
    (∀ (st : EngState) (line : String),
      st.swallowModeActive = true →
      (classifyLine line).IsThought = false →
      processLine st line =
        processLine { st with swallowModeActive := false } line) := by
  refine ⟨armSwallow_swallow,
    fun cfg st st1 reason reader leftover hp hb =>
      passStep_want cfg st st1 reason reader leftover hp hb,
    fun st line hsw hth hfr => ?_, fun st line hsw hth hfr => ?_,
    fun st line hsw hth => ?_⟩
  · unfold processLine
    simp [hsw, hth, hfr]
  · unfold processLine
    simp [hsw, hth, hfr]
  · unfold processLine
    simp [hsw, hth]

/-- C6 witness: a concrete swallowing state discards a thought line,
interrupts on a thought line with a finish reason, and processes a
formal line as if swallow mode were off. -/
theorem claim_C6_swallow_mode_witness :
    (armSwallow ⟨5, true⟩ { initialState with
        isOutputtingFormalText := true }).swallowModeActive =
      (false || (true && true)) ∧
    processLine { initialState with swallowModeActive := true }
        "data: \x7b\"candidates\":[\x7b\"content\":\x7b\"parts\":[\x7b\"text\":\"t\",\"thought\":true\x7d]\x7d\x7d]\x7d" =
      .proceed { initialState with swallowModeActive := true } ∧
    processLine { initialState with swallowModeActive := true }
        "data: \x7b\"candidates\":[\x7b\"content\":\x7b\"parts\":[\x7b\"text\":\"t\",\"thought\":true\x7d]\x7d,\"finishReason\":\"STOP\"\x7d]\x7d" =
      .interrupted { initialState with swallowModeActive := true }
        "FINISH_DURING_THOUGHT" ∧
    processLine { initialState with swallowModeActive := true }
        "data: \x7b\"candidates\":[\x7b\"content\":\x7b\"parts\":[\x7b\"text\":\"x\"\x7d]\x7d\x7d]\x7d" =
      processLine { { initialState with swallowModeActive := true } with
          swallowModeActive := false }
        "data: \x7b\"candidates\":[\x7b\"content\":\x7b\"parts\":[\x7b\"text\":\"x\"\x7d]\x7d\x7d]\x7d" := by
  refine ⟨claim_C6_swallow_mode.1 ⟨5, true⟩ _, ?_, ?_, ?_⟩
  · exact claim_C6_swallow_mode.2.2.1 _ _ (by decide) (by decide) (by decide)
  · exact claim_C6_swallow_mode.2.2.2.1 _ _ (by decide) (by decide) (by decide)
  · exact claim_C6_swallow_mode.2.2.2.2 _ _ (by decide) (by decide)

lemma string_data_length_eq_zero (s : String) :
    (s.data.length = 0) ↔ s = "" := by
  obtain ⟨l⟩ := s
  constructor
  · intro h
    have hl : l = [] := List.length_eq_zero.mp h
    subst hl
    rfl
  · intro h
    have hl : l = [] := congrArg String.data h
    simp [hl]

lemma string_length_eq_zero (s : String) : (s.length = 0) ↔ s = "" :=
  string_data_length_eq_zero s

lemma string_data_append (a b : String) : (a ++ b).data = a.data ++ b.data :=
  rfl

lemma string_append_empty (s : String) : s ++ "" = s := by
  obtain ⟨l⟩ := s
  exact congrArg String.mk (List.append_nil l)

lemma trimRightChars_append_spaces (u w : List Char)
    (hw : ∀ c ∈ w, goIsSpace c = true) :
    trimRightChars (u ++ w) = trimRightChars u := by
  unfold trimRightChars
  rw [List.reverse_append, List.dropWhile_append_of_pos (by simpa using hw)]

lemma trimRightChars_last_not_space (y : List Char) (c : Char)
    (hc : goIsSpace c = false) :
    trimRightChars (y ++ [c]) = y ++ [c] := by
  unfold trimRightChars
  rw [List.reverse_append]
  simp [List.dropWhile_cons, hc]

/-- Trimming removes appended all-whitespace text, as `TrimSpace` does. -/
lemma goTrimSpace_append_spaces (s w : String)
    (hw : ∀ c ∈ w.data, goIsSpace c = true) :
    goTrimSpace (s ++ w) = goTrimSpace s := by
  unfold goTrimSpace trimLeftChars
  rw [string_data_append, List.dropWhile_append]
  split
  · rename_i h
    have hs : s.data.dropWhile goIsSpace = [] := List.isEmpty_iff.mp h
    have hwnil : w.data.dropWhile goIsSpace = [] := by
      have := @List.dropWhile_append_of_pos Char goIsSpace w.data []
        (by simpa using hw)
      simpa using this
    rw [hwnil, hs]
  · exact congrArg String.mk (trimRightChars_append_spaces _ _ hw)

lemma dropWhile_keeps_done (x : List Char) :
    ∃ y, (x ++ "[done]".data).dropWhile goIsSpace = y ++ "[done]".data := by
  induction x with
  | nil => exact ⟨[], rfl⟩
  | cons c cs ih =>
    by_cases hc : goIsSpace c = true
    · simpa [List.dropWhile_cons, hc] using ih
    · exact ⟨c :: cs, by simp [List.dropWhile_cons, hc]⟩

/-- A trimmed string keeps (and therefore still passes) the `[done]`
suffix check, and is nonempty. -/
lemma goTrimSpace_keeps_done (base : String)
    (hbase : goHasSuffix base "[done]" = true) :
    goHasSuffix (goTrimSpace base) "[done]" = true ∧ goTrimSpace base ≠ "" := by
  have hsuf : "[done]".data <:+ base.data := by
    simpa [goHasSuffix] using hbase
  obtain ⟨x, hx⟩ := hsuf
  obtain ⟨y, hy⟩ := dropWhile_keeps_done x
  have htrim : goTrimSpace base = ⟨y ++ "[done]".data⟩ := by
    unfold goTrimSpace trimLeftChars
    rw [← hx, hy]
    have hsplit : y ++ "[done]".data = (y ++ ['[', 'd', 'o', 'n', 'e']) ++ [']'] := by
      simp
    rw [hsplit, trimRightChars_last_not_space _ _ (by decide), ← hsplit]
  constructor
  · rw [htrim]
    simp [goHasSuffix]
  · rw [htrim]
    intro hcon
    have := congrArg String.data hcon
    simp at this

/-- Forward step of the STOP validation: with finish reason STOP, no
thought flag, no block marker, and a nonempty trimmed accumulation ending
in the sentinel, the line is forwarded through the sentinel editor and
the session completes cleanly. -/
lemma stop_forward (st : EngState) (line : String)
    (hfin : ExtractFinishReason line = "STOP")
    (hth : (classifyLine line).IsThought = false)
    (hbl : IsBlockedLine line = false)
    (ht : goTrimSpace (st.accumulatedText ++ (classifyLine line).Text) ≠ "")
    (hsuf : goHasSuffix (goTrimSpace (st.accumulatedText ++
      (classifyLine line).Text)) "[done]" = true) :
    ∃ st', processLine st line = .finished st' ∧
      st'.output = st.output ++ [RemoveDoneTokenFromLine line true ++ "\n\n"] ∧
      (∀ (cfg : Config) (more : List String) (attempts : List Attempt),
        runSession cfg st (line :: more) attempts = .done st') := by
  have hpl : processLine st line = .finished
      (if (classifyLine line).Text ≠ "" then
        { accumulatedText := st.accumulatedText ++ (classifyLine line).Text
          consecutiveRetryCount := st.consecutiveRetryCount
          isOutputtingFormalText := true
          swallowModeActive := false
          output := st.output ++ [RemoveDoneTokenFromLine line true ++ "\n\n"]
          reasons := st.reasons
          issueCounts := st.issueCounts }
      else
        { accumulatedText := st.accumulatedText
          consecutiveRetryCount := st.consecutiveRetryCount
          isOutputtingFormalText := st.isOutputtingFormalText
          swallowModeActive := false
          output := st.output ++ [RemoveDoneTokenFromLine line true ++ "\n\n"]
          reasons := st.reasons
          issueCounts := st.issueCounts }) := by
    unfold processLine
    simp [hfin, hth, hbl, hsuf, string_data_length_eq_zero,
      string_length_eq_zero, ht]
  refine ⟨_, hpl, ?_, ?_⟩
  · split <;> simp
  · intro cfg more attempts
    exact runSession_terminal cfg st (line :: more) attempts _
      (passStep_clean cfg st _ (line :: more) more
        (by simp [processLines, hpl]))

/-- C3: a line reaching the STOP validation (finish reason STOP, not a
thought, not blocked) is settled by the trimmed concatenation `t` of the
accumulated text and the line's text: empty `t` raises
FINISH_EMPTY_RESPONSE (never a clean close), `t` missing the `[done]`
suffix raises FINISH_INCOMPLETE, and otherwise the line is forwarded
(with the sentinel edit for a terminal line) and the session completes
cleanly. -/
theorem claim_C3_stop_validation :
    ∀ (st : EngState) (line : String),
      ExtractFinishReason line = "STOP" →
      (classifyLine line).IsThought = false →
      IsBlockedLine line = false →
      ((goTrimSpace (st.accumulatedText ++ (classifyLine line).Text) = "" →
        processLine st line =
          .interrupted { st with swallowModeActive := false }
            "FINISH_EMPTY_RESPONSE") ∧
      (goTrimSpace (st.accumulatedText ++ (classifyLine line).Text) ≠ "" →
        goHasSuffix (goTrimSpace (st.accumulatedText ++
          (classifyLine line).Text)) "[done]" = false →
        processLine st line =
          .interrupted { st with swallowModeActive := false }
            "FINISH_INCOMPLETE") ∧
      (goTrimSpace (st.accumulatedText ++ (classifyLine line).Text) ≠ "" →
        goHasSuffix (goTrimSpace (st.accumulatedText ++
          (classifyLine line).Text)) "[done]" = true →
        ∃ st', processLine st line = .finished st' ∧
          st'.output = st.output ++
            [RemoveDoneTokenFromLine line true ++ "\n\n"] ∧
          (∀ (cfg : Config) (more : List String) (attempts : List Attempt),
            runSession cfg st (line :: more) attempts = .done st'))) := by
  intro st line hfin hth hbl
  refine ⟨fun ht => ?_, fun ht hsuf => ?_, fun ht hsuf => ?_⟩
  · unfold processLine
    simp [hfin, hth, hbl, ht]
  · unfold processLine
    simp [hfin, hth, hbl, hsuf, string_data_length_eq_zero,
      string_length_eq_zero, ht]
  · exact stop_forward st line hfin hth hbl ht hsuf

/-- C3 witness: a STOP line whose trimmed accumulation ends with the
sentinel is forwarded with the sentinel stripped and closes the session
cleanly. -/
theorem claim_C3_stop_validation_witness :
    ∃ st', processLine { initialState with accumulatedText := "Hello " }
        "data: \x7b\"candidates\":[\x7b\"content\":\x7b\"parts\":[\x7b\"text\":\"world.[done]\"\x7d]\x7d,\"finishReason\":\"STOP\"\x7d]\x7d" =
        .finished st' ∧
      st'.output = [] ++
        [RemoveDoneTokenFromLine
          "data: \x7b\"candidates\":[\x7b\"content\":\x7b\"parts\":[\x7b\"text\":\"world.[done]\"\x7d]\x7d,\"finishReason\":\"STOP\"\x7d]\x7d"
          true ++ "\n\n"] ∧
      (∀ (cfg : Config) (more : List String) (attempts : List Attempt),
        runSession cfg { initialState with accumulatedText := "Hello " }
          ("data: \x7b\"candidates\":[\x7b\"content\":\x7b\"parts\":[\x7b\"text\":\"world.[done]\"\x7d]\x7d,\"finishReason\":\"STOP\"\x7d]\x7d" :: more)
          attempts = .done st') := by
  exact (claim_C3_stop_validation
    { initialState with accumulatedText := "Hello " } _
    (by decide) (by decide) (by decide)).2.2 (by decide) (by decide)

/-- C9 counterexample: with accumulated text `"Hi [done] "` — the
sentinel followed by whitespace — a STOP line is forwarded and the
session closes cleanly; the `HasSuffix` check runs on the trimmed text
and passes, so no FINISH_INCOMPLETE interruption is raised, contrary to
the claim. -/
theorem claim_C9_counterexample :
    runSession ⟨3, false⟩ { initialState with accumulatedText := "Hi [done] " }
        ["data: \x7b\"candidates\":[\x7b\"finishReason\":\"STOP\"\x7d]\x7d"] [] =
      .done { initialState with
        accumulatedText := "Hi [done] "
        output := ["data: \x7b\"candidates\":[\x7b\"finishReason\":\"STOP\"\x7d]\x7d\n\n"] } ∧
    processLine { initialState with accumulatedText := "Hi [done] " }
        "data: \x7b\"candidates\":[\x7b\"finishReason\":\"STOP\"\x7d]\x7d" ≠
      .interrupted { initialState with accumulatedText := "Hi [done] " }
        "FINISH_INCOMPLETE" := by
  decide

/-- C9 amended: when the accumulated text is the sentinel followed only
by whitespace (`base` ending in `[done]` plus an all-whitespace `tail`),
a STOP line with empty text passes the completeness check — `TrimSpace`
removes the trailing whitespace before the `HasSuffix` test — and the
line is forwarded with a clean close, not a FINISH_INCOMPLETE retry. -/
theorem claim_C9_amended_whitespace_after_done (st : EngState)
    (line base tail : String)
    (hfin : ExtractFinishReason line = "STOP")
    (hth : (classifyLine line).IsThought = false)
    (hbl : IsBlockedLine line = false)
    (htext : (classifyLine line).Text = "")
    (hacc : st.accumulatedText = base ++ tail)
    (htail : ∀ c ∈ tail.data, goIsSpace c = true)
    (hbase : goHasSuffix base "[done]" = true) :
    ∃ st', processLine st line = .finished st' ∧
      (∀ (cfg : Config) (more : List String) (attempts : List Attempt),
        runSession cfg st (line :: more) attempts = .done st') := by
  have harg : st.accumulatedText ++ (classifyLine line).Text = base ++ tail := by
    rw [htext, string_append_empty, hacc]
  have htr : goTrimSpace (st.accumulatedText ++ (classifyLine line).Text) =
      goTrimSpace base := by
    rw [harg]
    exact goTrimSpace_append_spaces base tail htail
  obtain ⟨hkeep, hne⟩ := goTrimSpace_keeps_done base hbase
  obtain ⟨st', h1, _, h3⟩ := stop_forward st line hfin hth hbl
    (by rw [htr]; exact hne) (by rw [htr]; exact hkeep)
  exact ⟨st', h1, h3⟩

/-- C9 amended witness: the concrete scenario of the counterexample
instantiates the amended statement. -/
theorem claim_C9_amended_whitespace_after_done_witness :
    ∃ st', processLine { initialState with accumulatedText := "Hi [done] " }
        "data: \x7b\"candidates\":[\x7b\"finishReason\":\"STOP\"\x7d]\x7d" =
        .finished st' ∧
      (∀ (cfg : Config) (more : List String) (attempts : List Attempt),
        runSession cfg { initialState with accumulatedText := "Hi [done] " }
          ("data: \x7b\"candidates\":[\x7b\"finishReason\":\"STOP\"\x7d]\x7d" :: more)
          attempts = .done st') := by
  exact claim_C9_amended_whitespace_after_done
    { initialState with accumulatedText := "Hi [done] " }
    "data: \x7b\"candidates\":[\x7b\"finishReason\":\"STOP\"\x7d]\x7d" "Hi [done]" " "
    (by decide) (by decide) (by decide) (by decide) (by decide)
    (by decide) (by decide)

/-- C1 counterexample: with an exhausted initial stream, a continuation
attempt that fails at the transport level is followed by a re-issue at
retry count 2 — not the same attempt number — and a fresh DROP
interruption is raised in between: the ghost issue log reads [1, 2]
(the claim implies [1, 1]) and three DROP reasons are raised although
only one stream interruption preceded the first issue and one followed
the successful continuation. -/
theorem claim_C1_counterexample :
    (outcomeState (ProcessStreamAndRetryInternally ⟨5, false⟩ ""
      [.transportFail, .response 200 ""])).issueCounts = [1, 2] ∧
    ¬ (outcomeState (ProcessStreamAndRetryInternally ⟨5, false⟩ ""
      [.transportFail, .response 200 ""])).issueCounts = [1, 1] ∧
    (outcomeState (ProcessStreamAndRetryInternally ⟨5, false⟩ ""
      [.transportFail, .response 200 ""])).reasons =
      ["DROP", "DROP", "DROP"] := by
  decide

/-- C1 amended: a continuation attempt that fails at the transport level
(or with a retryable non-200 status) sends the engine back to the top of
the outer loop with the reader unchanged; an exhausted reader then
immediately raises a fresh DROP interruption, re-arms swallow mode, and
increments `consecutiveRetryCount` again before the next continuation is
issued — each failed continuation attempt consumes one unit of the retry
budget instead of re-issuing under the same attempt number. -/
theorem claim_C1_amended_failed_attempt_consumes_budget :
    (∀ (cfg : Config) (st : EngState) (rest : List Attempt),
      st.consecutiveRetryCount < cfg.maxConsecutiveRetries →
      runSession cfg st [] (.transportFail :: rest) =
        runSession cfg
          { accumulatedText := st.accumulatedText
            consecutiveRetryCount := st.consecutiveRetryCount + 1
            isOutputtingFormalText := st.isOutputtingFormalText
            swallowModeActive := st.swallowModeActive ||
              (cfg.swallowThoughtsAfterRetry && st.isOutputtingFormalText)
            output := st.output
            reasons := st.reasons ++ ["DROP"]
            issueCounts := st.issueCounts ++ [st.consecutiveRetryCount + 1] }
          [] rest) ∧
    (∀ (cfg : Config) (st : EngState) (rest : List Attempt)
        (status : Nat) (body : String),
      st.consecutiveRetryCount < cfg.maxConsecutiveRetries →
      nonRetryableStatuses status = false → status ≠ 200 →
      runSession cfg st [] (.response status body :: rest) =
        runSession cfg
          { accumulatedText := st.accumulatedText
            consecutiveRetryCount := st.consecutiveRetryCount + 1
            isOutputtingFormalText := st.isOutputtingFormalText
            swallowModeActive := st.swallowModeActive ||
              (cfg.swallowThoughtsAfterRetry && st.isOutputtingFormalText)
            output := st.output
            reasons := st.reasons ++ ["DROP"]
            issueCounts := st.issueCounts ++ [st.consecutiveRetryCount + 1] }
          [] rest) := by
  have hstate : ∀ (cfg : Config) (st : EngState),
      recordIssue (bumpRetry (armSwallow cfg (pushReason st "DROP"))) =
        { accumulatedText := st.accumulatedText
          consecutiveRetryCount := st.consecutiveRetryCount + 1
          isOutputtingFormalText := st.isOutputtingFormalText
          swallowModeActive := st.swallowModeActive ||
            (cfg.swallowThoughtsAfterRetry && st.isOutputtingFormalText)
          output := st.output
          reasons := st.reasons ++ ["DROP"]
          issueCounts := st.issueCounts ++ [st.consecutiveRetryCount + 1] } := by
    intro cfg st
    rcases hsw : cfg.swallowThoughtsAfterRetry <;>
      rcases hout : st.isOutputtingFormalText <;>
      simp [recordIssue, bumpRetry, armSwallow, pushReason, hsw, hout]
  constructor
  · intro cfg st rest hb
    have hps := passStep_want cfg st st "DROP" [] [] rfl (by omega)
    rw [runSession_want_transport cfg st _ [] [] rest hps, hstate]
  · intro cfg st rest status body hb hs h200
    have hps := passStep_want cfg st st "DROP" [] [] rfl (by omega)
    rw [runSession_want_non200 cfg st _ [] [] rest status body hps hs h200,
      hstate]

/-- C1 amended witness: a concrete failed attempt re-enters the loop with
the retry counter already advanced and a fresh DROP recorded. -/
theorem claim_C1_amended_failed_attempt_consumes_budget_witness :
    runSession ⟨5, false⟩ initialState [] [.transportFail] =
      runSession ⟨5, false⟩
        { accumulatedText := ""
          consecutiveRetryCount := 1
          isOutputtingFormalText := false
          swallowModeActive := false || (false && false)
          output := []
          reasons := [] ++ ["DROP"]
          issueCounts := [] ++ [1] }
        [] [] := by
  exact claim_C1_amended_failed_attempt_consumes_budget.1 ⟨5, false⟩
    initialState [] (by decide)

/-- C2 counterexample: in the drop-then-continue scenario the client
does observe two frames, but the concatenation of the text fields it
sees is `"Part A.Part B."`, not `"Part A. Part B."`: the sentinel editor
trims the terminal chunk's text before stripping `[done]`, losing the
leading space of `" Part B.[done]"`. -/
theorem claim_C2_counterexample :
    String.join (observedTexts (outcomeState (ProcessStreamAndRetryInternally
      ⟨100, true⟩
      "data: \x7b\"candidates\":[\x7b\"content\":\x7b\"parts\":[\x7b\"text\":\"Part A.\"\x7d]\x7d\x7d]\x7d\n\n"
      [.response 200
        "data: \x7b\"candidates\":[\x7b\"content\":\x7b\"parts\":[\x7b\"text\":\" Part B.[done]\"\x7d]\x7d,\"finishReason\":\"STOP\"\x7d]\x7d\n\n"])).output)
      = "Part A.Part B." ∧
    ("Part A.Part B." : String) ≠ "Part A. Part B." := by
  decide

/-- C2 amended: in the drop-then-continue scenario the client observes
exactly two data frames, with text fields `"Part A."` and `"Part B."`
(the terminal chunk is trimmed by the sentinel editor, so its leading
space is lost); their concatenation is `"Part A.Part B."`, while the
engine's internal accumulated text keeps the space and the sentinel, and
the session completes cleanly after one retry. -/
theorem claim_C2_amended_drop_then_continue :
    ProcessStreamAndRetryInternally ⟨100, true⟩
      "data: \x7b\"candidates\":[\x7b\"content\":\x7b\"parts\":[\x7b\"text\":\"Part A.\"\x7d]\x7d\x7d]\x7d\n\n"
      [.response 200
        "data: \x7b\"candidates\":[\x7b\"content\":\x7b\"parts\":[\x7b\"text\":\" Part B.[done]\"\x7d]\x7d,\"finishReason\":\"STOP\"\x7d]\x7d\n\n"] =
      .done
        { accumulatedText := "Part A. Part B.[done]"
          consecutiveRetryCount := 1
          isOutputtingFormalText := true
          swallowModeActive := false
          output :=
            ["data: \x7b\"candidates\":[\x7b\"content\":\x7b\"parts\":[\x7b\"text\":\"Part A.\"\x7d]\x7d\x7d]\x7d\n\n",
             "data: \x7b\"candidates\":[\x7b\"content\":\x7b\"parts\":[\x7b\"text\":\"Part B.\"\x7d]\x7d,\"finishReason\":\"STOP\"\x7d]\x7d\n\n"]
          reasons := ["DROP"]
          issueCounts := [1] } ∧
    observedTexts
      ["data: \x7b\"candidates\":[\x7b\"content\":\x7b\"parts\":[\x7b\"text\":\"Part A.\"\x7d]\x7d\x7d]\x7d\n\n",
       "data: \x7b\"candidates\":[\x7b\"content\":\x7b\"parts\":[\x7b\"text\":\"Part B.\"\x7d]\x7d,\"finishReason\":\"STOP\"\x7d]\x7d\n\n"]
      = ["Part A.", "Part B."] := by
  exact ⟨by decide, by decide⟩

lemma mapGet_mapSet_self (m : List (String × JVal)) (k : String) (v : JVal) :
    mapGet (mapSet m k v) k = some v := by
  induction m with
  | nil => simp [mapSet, mapGet]
  | cons p rest ih =>
    obtain ⟨a, b⟩ := p
    by_cases ha : a = k <;> simp [mapSet, mapGet, ha, ih]

lemma mapGet_mapSet_ne (m : List (String × JVal)) (k k' : String) (v : JVal)
    (h : k' ≠ k) :
    mapGet (mapSet m k v) k' = mapGet m k' := by
  induction m with
  | nil => simp [mapSet, mapGet, Ne.symm h]
  | cons p rest ih =>
    obtain ⟨a, b⟩ := p
    by_cases ha : a = k
    · subst ha
      simp [mapSet, mapGet, Ne.symm h]
    · simp [mapSet, mapGet, ha, ih]

/-- The downward scan of BuildRetryRequestBody finds exactly the greatest
index whose entry is a user message. -/
lemma lastUserIndex_spec : ∀ l : List JVal,
    (match lastUserIndex l with
     | some i => i < l.length ∧ isUserMessage (l.getD i .jnull) = true ∧
         ∀ j, i < j → j < l.length → isUserMessage (l.getD j .jnull) = false
     | none => ∀ j, j < l.length → isUserMessage (l.getD j .jnull) = false) := by
  intro l
  induction l with
  | nil => simp [lastUserIndex]
  | cons c cs ih =>
    rcases h : lastUserIndex cs with _ | i
    · rw [h] at ih
      by_cases hc : isUserMessage c = true
      · rw [show lastUserIndex (c :: cs) = some 0 by
          simp [lastUserIndex, h, hc]]
        refine ⟨by simp, by simpa using hc, ?_⟩
        intro j hj0 hjlen
        obtain ⟨j', rfl⟩ : ∃ j', j = j' + 1 := ⟨j - 1, by omega⟩
        rw [List.getD_cons_succ]
        exact ih j' (by simp at hjlen; omega)
      · rw [show lastUserIndex (c :: cs) = none by
          simp [lastUserIndex, h, hc]]
        intro j hjlen
        cases j with
        | zero => simpa using hc
        | succ j' =>
          rw [List.getD_cons_succ]
          exact ih j' (by simp at hjlen; omega)
    · rw [h] at ih
      rw [show lastUserIndex (c :: cs) = some (i + 1) by
        simp [lastUserIndex, h]]
      refine ⟨by simp; omega, ?_, ?_⟩
      · rw [List.getD_cons_succ]
        exact ih.2.1
      · intro j hij hjlen
        obtain ⟨j', rfl⟩ : ∃ j', j = j' + 1 := ⟨j - 1, by omega⟩
        rw [List.getD_cons_succ]
        exact ih.2.2 j' (by omega) (by simp at hjlen; omega)

/-- C8: the Continuation Builder returns the original body with
`contents` replaced by the original contents plus exactly two messages —
a model message carrying the accumulated text, then the fixed user
continuation instruction — inserted immediately after the last message
whose role is `"user"` (appended at the end when no user message exists,
the index used being the greatest user-message index); every other field
of the body is unchanged. -/
theorem claim_C8_continuation_builder :
    (∀ (body : List (String × JVal)) (acc : String) (k : String),
      k ≠ "contents" →
      mapGet (BuildRetryRequestBody body acc) k = mapGet body k) ∧
    (∀ (body : List (String × JVal)) (acc : String),
      mapGet (BuildRetryRequestBody body acc) "contents" =
        some (.jarr (match lastUserIndex (contentsOf body) with
          | some i => (contentsOf body).take (i + 1) ++ retryHistory acc ++
              (contentsOf body).drop (i + 1)
          | none => contentsOf body ++ retryHistory acc))) ∧
    (∀ acc : String, retryHistory acc =
      [ .jobj [("role", .jstr "model"),
               ("parts", .jarr [.jobj [("text", .jstr acc)]])],
        .jobj [("role", .jstr "user"),
               ("parts", .jarr [.jobj [("text", .jstr
                 "Continue exactly where you left off without any preamble or repetition.")]])] ]) ∧
    (∀ l : List JVal,
      (match lastUserIndex l with
       | some i => i < l.length ∧ isUserMessage (l.getD i .jnull) = true ∧
           ∀ j, i < j → j < l.length → isUserMessage (l.getD j .jnull) = false
       | none => ∀ j, j < l.length →
           isUserMessage (l.getD j .jnull) = false)) := by
  refine ⟨fun body acc k hk => ?_, fun body acc => ?_,
    fun acc => rfl, lastUserIndex_spec⟩
  · unfold BuildRetryRequestBody
    exact mapGet_mapSet_ne _ _ _ _ hk
  · unfold BuildRetryRequestBody
    exact mapGet_mapSet_self _ _ _

/-- C8 witness: on a concrete body the builder inserts the two-message
history after the last user message and leaves the other field alone. -/
theorem claim_C8_continuation_builder_witness :
    mapGet (BuildRetryRequestBody
      [("generationConfig", .jnum 7),
       ("contents", .jarr
         [.jobj [("role", .jstr "user"),
                 ("parts", .jarr [.jobj [("text", .jstr "Hello")]])]])]
      "partial") "generationConfig" =
      mapGet [("generationConfig", JVal.jnum 7),
       ("contents", .jarr
         [.jobj [("role", .jstr "user"),
                 ("parts", .jarr [.jobj [("text", .jstr "Hello")]])]])]
        "generationConfig" ∧
    mapGet (BuildRetryRequestBody
      [("generationConfig", .jnum 7),
       ("contents", .jarr
         [.jobj [("role", .jstr "user"),
                 ("parts", .jarr [.jobj [("text", .jstr "Hello")]])]])]
      "partial") "contents" =
      some (.jarr
        ([.jobj [("role", .jstr "user"),
                 ("parts", .jarr [.jobj [("text", .jstr "Hello")]])]].take 1 ++
          retryHistory "partial" ++
          [.jobj [("role", .jstr "user"),
                  ("parts", .jarr [.jobj [("text", .jstr "Hello")]])]].drop 1)) := by
  refine ⟨claim_C8_continuation_builder.1 _ "partial" "generationConfig"
    (by decide), ?_⟩
  have h := claim_C8_continuation_builder.2.1
    [("generationConfig", JVal.jnum 7),
     ("contents", .jarr
       [.jobj [("role", .jstr "user"),
               ("parts", .jarr [.jobj [("text", .jstr "Hello")]])]])]
    "partial"
  rw [h]
  rfl

/-- C10: a data line passed to the sentinel editor with the terminal
flag set, whose first candidate's first part lacks a string `text` field
or carries a boolean-true `thought` flag, is returned byte-for-byte
unchanged. -/
theorem claim_C10_sentinel_editor_skips_thought_or_textless :
    ∀ (line pre jsonPart : String) (m cm cont pm : List (String × JVal))
      (restCands restParts : List JVal),
      IsDataLine line = true →
      splitAtBrace line = some (pre, jsonPart) →
      goJsonParse jsonPart = some (.jobj m) →
      mapGet m "candidates" = some (.jarr (.jobj cm :: restCands)) →
      mapGet cm "content" = some (.jobj cont) →
      mapGet cont "parts" = some (.jarr (.jobj pm :: restParts)) →
      ((∀ s, mapGet pm "text" ≠ some (.jstr s)) ∨
        mapGet pm "thought" = some (.jbool true)) →
      RemoveDoneTokenFromLine line true = line := by
  intro line pre jsonPart m cm cont pm restCands restParts
    hd hsplit hparse hcand hcont hparts hcase
  unfold RemoveDoneTokenFromLine
  rw [hd]
  simp only [hsplit, hparse, hcand, hcont, hparts]
  rcases hcase with hnotext | hthought
  · rcases htext : mapGet pm "text" with _ | tv
    · simp [htext]
    · cases tv
      case jstr s => exact absurd htext (hnotext s)
      all_goals simp [htext]
  · rcases htext : mapGet pm "text" with _ | tv
    · simp [htext]
    · cases tv
      case jstr s => simp [htext, hthought]
      all_goals simp [htext]

/-- C10 witness: a terminal data line whose first part is a thought is
returned unchanged by the sentinel editor. -/
theorem claim_C10_sentinel_editor_skips_thought_or_textless_witness :
    RemoveDoneTokenFromLine
      "data: \x7b\"candidates\":[\x7b\"content\":\x7b\"parts\":[\x7b\"text\":\"x[done]\",\"thought\":true\x7d]\x7d,\"finishReason\":\"STOP\"\x7d]\x7d"
      true =
      "data: \x7b\"candidates\":[\x7b\"content\":\x7b\"parts\":[\x7b\"text\":\"x[done]\",\"thought\":true\x7d]\x7d,\"finishReason\":\"STOP\"\x7d]\x7d" := by
  exact claim_C10_sentinel_editor_skips_thought_or_textless
    "data: \x7b\"candidates\":[\x7b\"content\":\x7b\"parts\":[\x7b\"text\":\"x[done]\",\"thought\":true\x7d]\x7d,\"finishReason\":\"STOP\"\x7d]\x7d"
    "data: "
    "\x7b\"candidates\":[\x7b\"content\":\x7b\"parts\":[\x7b\"text\":\"x[done]\",\"thought\":true\x7d]\x7d,\"finishReason\":\"STOP\"\x7d]\x7d"
    [("candidates", .jarr [.jobj
      [("content", .jobj [("parts", .jarr [.jobj
        [("text", .jstr "x[done]"), ("thought", .jbool true)]])]),
       ("finishReason", .jstr "STOP")]])]
    [("content", .jobj [("parts", .jarr [.jobj
      [("text", .jstr "x[done]"), ("thought", .jbool true)]])]),
     ("finishReason", .jstr "STOP")]
    [("parts", .jarr [.jobj
      [("text", .jstr "x[done]"), ("thought", .jbool true)]])]
    [("text", .jstr "x[done]"), ("thought", .jbool true)]
    [] []
    (by decide) (by decide) rfl rfl rfl rfl
    (Or.inr rfl)

end GeminiAntiblock
